import Mathlib

/-!
A verification development for the ARM ioremap mapping engine
(`arch/arm/mm/ioremap.c`): granularity selection, page-table population
and teardown at each granularity, the lazy cross-address-space
synchronization (`__check_kvm_seq`), and the strided multi-region mapper
(`__arm_multi_strided_ioremap`).

Machine integers (`unsigned long`, `phys_addr_t`) are modelled as `Nat`
with explicit reduction modulo `2^32` at the operations where 32-bit
wraparound matters.  Architecture constants (non-LPAE classic ARM MMU):
`PAGE_SHIFT = 12`, `PGDIR_SIZE = PMD_SIZE = 2^21` (a pgd/pmd entry covers
2 MiB and consists of two 1 MiB section slots), `SZ_1M = 2^20`,
`SUPERSECTION_SIZE = 2^24`.  The upper page-table level is modelled as a
map from 1 MiB slot indices (`virtual address >> 20`) to entries; a C
`pmd_t *` obtained from `pmd_offset` points at the even slot of a pair.

External collaborators (the virtual-area allocator `get_vm_area`, the
memory-type catalog `get_mem_type`, page-table level allocation, and the
outcome of a dispatched populator run) are supplied by an `Env` record;
cache/TLB maintenance and the mapping steps themselves are recorded in an
event trace so that "before any state mutation" and "releases the whole
area" are statements about the trace.
-/

set_option maxRecDepth 10000

namespace Ioremap

/-- Mapping granularity selected by the orchestrator (lines 285-297). -/
inductive Gran where
  | supersection
  | sect
  | page
deriving DecidableEq, Repr

/-- Build/hardware configuration consulted by the granularity selection:
`CONFIG_SMP`, `DOMAIN_IO == 0`, `cpu_architecture() >= CPU_ARCH_ARMv6`,
`get_cr() & CR_XP`, `cpu_is_xsc3()`. -/
structure Cfg where
  smp : Bool
  domainIOZero : Bool
  archGeV6 : Bool
  crXP : Bool
  xsc3 : Bool
deriving DecidableEq, Repr

/-- `__pfn_to_phys(pfn)`: `pfn << PAGE_SHIFT` in a 32-bit `phys_addr_t`. -/
def pfnToPhys (pfn : Nat) : Nat := (pfn <<< 12) % 4294967296

/-- The granularity choice of `__arm_ioremap_pfn_caller` lines 285-297
(the strided mapper repeats the same condition per step, lines 427-439):
supersection when not SMP, `DOMAIN_IO == 0`, the CPU capability holds,
`pfn >= 0x100000`, and `phys | size | addr` is 16 MiB aligned
(`& ~SUPERSECTION_MASK` is `& 0xffffff`); else section when not SMP and
`phys | size | addr` is 2 MiB aligned (`& ~PMD_MASK` is `& 0x1fffff`);
else page granularity. -/
def granularityFor (cfg : Cfg) (pfn size addr : Nat) : Gran :=
  if cfg.smp then .page
  else if cfg.domainIOZero = true ∧
          ((cfg.archGeV6 = true ∧ cfg.crXP = true) ∨ cfg.xsc3 = true) ∧
          0x100000 ≤ pfn ∧
          (pfnToPhys pfn ||| size ||| addr) &&& 0xffffff = 0 then .supersection
  else if (pfnToPhys pfn ||| size ||| addr) &&& 0x1fffff = 0 then .sect
  else .page

/-- A resolved `struct mem_type`: the attribute bits for leaf (pte) and
block (section) entries. -/
structure MemType where
  prot_pte : Nat
  prot_sect : Nat
deriving DecidableEq, Repr

/-- Observable effects of the orchestrator and the strided mapper. -/
inductive Ev where
  | reserve (size addr : Nat)
  | dispatch (g : Gran) (addr pfn size : Nat)
  | release (addr : Nat)
  | flushCacheVmap (a b : Nat)
deriving DecidableEq, Repr

/-- The external collaborators: `get_mem_type`, `get_vm_area` (returning
the base address of a fresh virtual area, or failure), the outcome (a C
`int` error code, `0` on success) of the dispatched `remap_area_*` run,
and the build/hardware configuration. -/
structure Env where
  memType : Nat → Option MemType
  vmArea : Nat → Option Nat
  populate : Gran → Nat → Nat → Nat → MemType → Nat
  cfg : Cfg

/-- `PAGE_ALIGN(x)` on a 32-bit `unsigned long`. -/
def pageAlign (x : Nat) : Nat := ((x + 4095) % 4294967296) &&& 0xfffff000

/-- Lines 265-269 and 401-406: "High mappings must be supersection
aligned": `pfn >= 0x100000 && (__pfn_to_phys(pfn) & ~SUPERSECTION_MASK)`. -/
def highReject (pfn : Nat) : Bool :=
  decide (0x100000 ≤ pfn) && decide (pfnToPhys pfn &&& 0xffffff ≠ 0)

/-- `__arm_ioremap_pfn_caller` (lines 257-306): high-pfn alignment check,
memory-type resolution, page alignment of `offset + size`, virtual-area
reservation, granularity selection and dispatch; on dispatch failure the
whole area is released (`vunmap`) and NULL returned, on success the cache
is flushed for the range and `offset + addr` returned. -/
def ioremapPfnCaller (env : Env) (pfn offset size0 mtype : Nat) :
    Option Nat × List Ev :=
  if highReject pfn then (none, [])
  else
    match env.memType mtype with
    | none => (none, [])
    | some ty =>
      let size := pageAlign (offset + size0)
      match env.vmArea size with
      | none => (none, [])
      | some addr =>
        let g := granularityFor env.cfg pfn size addr
        let err := env.populate g addr pfn size ty
        if err ≠ 0 then
          (none, [.reserve size addr, .dispatch g addr pfn size, .release addr])
        else
          (some (offset + addr),
           [.reserve size addr, .dispatch g addr pfn size,
            .flushCacheVmap addr (addr + size)])

/-- `x - 1` in 32-bit arithmetic (adding `2^32 - 1` avoids the truncated
`Nat` subtraction at `x = 0`). -/
def wrap32sub1 (x : Nat) : Nat := (x + 4294967295) % 4294967296

/-- `__arm_ioremap_caller` (lines 308-324): reject zero size and 32-bit
wraparound of `phys_addr + size - 1`, then delegate to the pfn-based
entry with `offset = phys_addr & ~PAGE_MASK` and `pfn = phys_addr >> 12`. -/
def ioremapCaller (env : Env) (phys size mtype : Nat) : Option Nat × List Ev :=
  if size = 0 ∨ wrap32sub1 (phys + size) < phys then (none, [])
  else ioremapPfnCaller env (phys >>> 12) (phys &&& 0xfff) size mtype

/-- Input arrays of `__arm_multi_strided_ioremap`: `phys_addr[]`,
`phys_size[]`, and the two optional (possibly NULL) stride arrays. -/
structure SIn where
  phys : List Nat
  size : List Nat
  pstride : Option (List Nat)
  vstride : Option (List Nat)

/-- `(stride && stride[i]) ? stride[i] : phys_size[i]`: a stride entry
that is absent (NULL array) or zero defaults to the region size. -/
def resolved (o : Option (List Nat)) (i dflt : Nat) : Nat :=
  match o with
  | some l => if l.getD i 0 ≠ 0 then l.getD i 0 else dflt
  | none => dflt

/-- Line 378: `!pstride ^ !vstride` on the resolved strides. -/
def strideXorFail (r : SIn) (i : Nat) : Bool :=
  Bool.xor (resolved r.pstride i (r.size.getD i 0) == 0)
           (resolved r.vstride i (r.size.getD i 0) == 0)

/-- Lines 391-397: page alignment of base, size and both resolved
strides; nonzero size; `vstride <= pstride`; size divisible by `pstride`
(when `pstride` nonzero); no 32-bit wraparound. -/
def regionReject (r : SIn) (i : Nat) : Bool :=
  let sz := r.size.getD i 0
  let ps := resolved r.pstride i sz
  let vs := resolved r.vstride i sz
  decide ((r.phys.getD i 0 ||| sz ||| vs ||| ps) &&& 0xfff ≠ 0) ||
  decide (sz = 0) ||
  decide (ps < vs) ||
  (decide (ps ≠ 0) && decide (sz % ps ≠ 0)) ||
  decide (wrap32sub1 (r.phys.getD i 0 + sz) < r.phys.getD i 0)

/-- Lines 401-406 applied to region `i`. -/
def regionHigh (r : SIn) (i : Nat) : Bool :=
  highReject (r.phys.getD i 0 >>> 12)

/-- Line 408: the region's contribution `phys_size[i] / pstride * vstride`
to the total virtual size. -/
def regionAdd (r : SIn) (i : Nat) : Nat :=
  let sz := r.size.getD i 0
  sz / resolved r.pstride i sz * resolved r.vstride i sz

/-- The validation loop of `__arm_multi_strided_ioremap` (lines 370-409),
processing regions `i, i+1, ...` with `n` regions left and accumulating
the total virtual size; any failed check rejects the whole call. -/
def validateFrom (r : SIn) : Nat → Nat → Nat → Option Nat
  | _, tot, 0 => some tot
  | i, tot, n+1 =>
    if strideXorFail r i then none
    else if regionReject r i then none
    else if regionHigh r i then none
    else validateFrom r (i+1) (tot + regionAdd r i) (n)

/-- Size argument handed to the dispatched mapper per strided step: the
supersection branch passes `phys_size[i]`, the section and page branches
pass `vstride` (lines 433, 436, 439). -/
def stepSize (g : Gran) (sz vs : Nat) : Nat :=
  if g = Gran.supersection then sz else vs

/-- The inner step loop of the strided mapper (lines 426-442): one
dispatch per `pstride`-sized step of the region, advancing the physical
frame by `pstride >> 12` and the virtual cursor by `vstride`.  The C
`err` variable is assigned by every step and the loop does not test it,
so the value left behind is that of the region's last step. -/
def mapSteps (env : Env) (ty : MemType) (sz vs ps : Nat) :
    Nat → Nat → Nat → Nat × List Ev
  | 0, _, _ => (0, [])
  | n+1, pfn, a =>
    let g := granularityFor env.cfg pfn vs a
    let d := stepSize g sz vs
    let e := env.populate g a pfn d ty
    let rest := mapSteps env ty sz vs ps n (pfn + (ps >>> 12)) (a + vs)
    (if n = 0 then e else rest.1, .dispatch g a pfn d :: rest.2)

/-- The outer region loop (lines 420-443): `for (i = 0; i < sections &&
!err; i++)` — the error is only consulted between regions. -/
def mapRegions (env : Env) (ty : MemType) (r : SIn) :
    Nat → Nat → Nat → Nat → Nat × List Ev
  | _, _, err, 0 => (err, [])
  | i, a, err, n+1 =>
    if err ≠ 0 then (err, [])
    else
      let sz := r.size.getD i 0
      let ps := resolved r.pstride i sz
      let vs := resolved r.vstride i sz
      let steps := (sz + ps - 1) / ps
      let here := mapSteps env ty sz vs ps steps (r.phys.getD i 0 >>> 12) a
      let rest := mapRegions env ty r (i+1) (a + steps * vs) here.1 (n)
      (rest.1, here.2 ++ rest.2)

/-- `__arm_multi_strided_ioremap` (lines 352-453): bound on the region
count, the validation loop, memory-type resolution, one reservation of
the accumulated total size, the region/step mapping loops, and the final
error test that releases the whole area on failure. -/
def stridedIoremap (env : Env) (sections : Nat) (r : SIn) (mtype : Nat) :
    Option Nat × List Ev :=
  if 4 < sections then (none, [])
  else
    match validateFrom r 0 0 sections with
    | none => (none, [])
    | some total =>
      match env.memType mtype with
      | none => (none, [])
      | some ty =>
        match env.vmArea total with
        | none => (none, [])
        | some addr =>
          let run := mapRegions env ty r 0 addr 0 sections
          if run.1 ≠ 0 then
            (none, .reserve total addr :: run.2 ++ [.release addr])
          else
            (some addr, .reserve total addr :: run.2 ++
              [.flushCacheVmap addr (addr + total)])

/-- An upper-level (pmd) slot: unmapped, pointing to a leaf table
(`PMD_TYPE_TABLE`, identified by `tid`), or a direct section entry. -/
inductive PmdEntry where
  | empty
  | table (tid : Nat)
  | sect (v : Nat)
deriving DecidableEq, Repr

/-- Observable effects of the block mapper and its teardown. -/
inductive MEv where
  | flushCacheVunmap (a b : Nat)
  | clearPmd (s : Nat)
  | freeTable (tid : Nat)
  | syncMm (seq : Nat)
  | flushTLB (a b : Nat)
  | flushPmd (s : Nat)
deriving DecidableEq, Repr

/-- State threaded through the block mapper: the upper-level table
(indexed by 1 MiB slot), the global generation counter
`init_mm.context.kvm_seq`, the leaf tables freed so far, and the trace. -/
structure KState where
  pmd : Nat → PmdEntry
  seq : Nat
  freed : List Nat
  trace : List MEv

/-- Pointwise update of the upper-level table. -/
def updPmd (m : Nat → PmdEntry) (s : Nat) (v : PmdEntry) : Nat → PmdEntry :=
  fun x => if x = s then v else m x

/-- One `do`-loop body of `unmap_area_sections` (lines 152-176) at the
even slot `s`: read `*pmdp`; if non-empty, `pmd_clear` (both slots of the
pair), bump the generation counter, and free the referenced leaf table
when the entry had `PMD_TYPE_TABLE`; an empty entry is left alone. -/
def unmapIter (sigma : KState) (s : Nat) : KState :=
  match sigma.pmd s with
  | .empty => sigma
  | .table tid =>
    { sigma with
      pmd := updPmd (updPmd sigma.pmd s .empty) (s+1) .empty
      seq := sigma.seq + 1
      freed := sigma.freed ++ [tid]
      trace := sigma.trace ++ [.clearPmd s, .freeTable tid] }
  | .sect _ =>
    { sigma with
      pmd := updPmd (updPmd sigma.pmd s .empty) (s+1) .empty
      seq := sigma.seq + 1
      trace := sigma.trace ++ [.clearPmd s] }

/-- The even slot addressed by `pmd_offset(pgd_offset_k(addr), addr)`:
the pgd entry index `addr >> 21`, times two 1 MiB slots. -/
def slotOf (addr : Nat) : Nat := (addr >>> 21) * 2

/-- The teardown loop, advancing `addr` by `PGDIR_SIZE` (2 MiB) per
iteration, run `n` times. -/
def unmapLoop (sigma : KState) (addr : Nat) : Nat → KState
  | 0 => sigma
  | n+1 => unmapLoop (unmapIter sigma (slotOf addr)) (addr + 2097152) (n)

/-- Number of executions of a `do { ... addr += PGDIR_SIZE; } while
(addr < e)` body starting at `a` — at least one. -/
def iterCount2M (a e : Nat) : Nat := max 1 ((e - a + 2097151) / 2097152)

/-- Append maintenance events to the trace. -/
def withTrace (s : KState) (evs : List MEv) : KState :=
  { s with trace := s.trace ++ evs }

/-- Lines 182-183: re-sync the active address space (`__check_kvm_seq`)
when its recorded generation `aseq` differs from the global one. -/
def syncIfStale (aseq : Nat) (s : KState) : KState :=
  if aseq ≠ s.seq then withTrace s [.syncMm s.seq] else s

/-- `unmap_area_sections` (lines 145-186): mask the size down to a 1 MiB
multiple, flush the cache for the range, clear every non-empty pmd pair
over it (bumping the generation counter and freeing referenced leaf
tables), re-sync the active address space if its recorded generation is
stale, and flush the TLB for the range. -/
def unmap_area_sections (pmd0 : Nat → PmdEntry) (seq0 aseq virt size : Nat) :
    KState :=
  withTrace
    (syncIfStale aseq
      (unmapLoop
        ⟨pmd0, seq0, [],
         [.flushCacheVunmap virt (virt + ((size >>> 20) <<< 20))]⟩
        virt (iterCount2M virt (virt + ((size >>> 20) <<< 20)))))
    [.flushTLB virt (virt + ((size >>> 20) <<< 20))]

/-- The value `__pmd(__pfn_to_phys(pfn) | type->prot_sect)`. -/
def sectVal (pfn prot : Nat) : Nat := pfnToPhys pfn ||| prot

/-- One body of the `remap_area_sections` write loop (lines 202-213):
`pmd[0]` gets a section entry for `pfn`, `pmd[1]` one for `pfn + 256`
(the frame number advances by `SZ_1M >> PAGE_SHIFT = 256` between the two
writes), then `flush_pmd_entry`. -/
def remapIter (sigma : KState) (s pfn prot : Nat) : KState :=
  { sigma with
    pmd := updPmd (updPmd sigma.pmd s (.sect (sectVal pfn prot)))
             (s+1) (.sect (sectVal (pfn + 256) prot))
    trace := sigma.trace ++ [.flushPmd s] }

/-- The section write loop: per iteration the address advances by
`PGDIR_SIZE` and the frame number by `2 * 256 = 512` pages. -/
def remapLoop (sigma : KState) (addr pfn prot : Nat) : Nat → KState
  | 0 => sigma
  | n+1 => remapLoop (remapIter sigma (slotOf addr) pfn prot)
             (addr + 2097152) (pfn + 512) prot (n)

/-- `remap_area_sections` (lines 188-216): first remove and free any
existing mapping over the range via `unmap_area_sections`, then install
the section entries. -/
def remap_area_sections (pmd0 : Nat → PmdEntry)
    (seq0 aseq virt pfn size prot : Nat) : KState :=
  remapLoop (unmap_area_sections pmd0 seq0 aseq virt size) virt pfn prot
    (iterCount2M virt (virt + size))

/-- The value `pfn_pte(phys_addr >> PAGE_SHIFT, prot)` written by
`set_pte_ext` (line 59). -/
def pfn_pte (pfn prot : Nat) : Nat := (pfn <<< 12) ||| prot

/-- Pointwise update of a leaf (pte) table, indexed by page number. -/
def updPte (t : Nat → Option Nat) (p v : Nat) : Nat → Option Nat :=
  fun x => if x = p then some v else t x

/-- Outcome of `remap_area_pte`: success, the fatal `BUG()` on an
occupied slot (line 66, which aborts and is distinct from any returned
error value), or `-ENOMEM` from `pte_alloc_kernel`.  Each carries the
leaf table as left behind. -/
inductive PteRes where
  | ok (t : Nat → Option Nat)
  | conflict (t : Nat → Option Nat)
  | enomem (t : Nat → Option Nat)

/-- The `do`-loop of `remap_area_pte` (lines 55-61) over `n` pages
starting at page number `page`: an occupied slot aborts with the fatal
conflict before any further write; otherwise the leaf entry is written
and `phys_addr` advances by `PAGE_SIZE`. -/
def remapPteLoop (prot : Nat) : (Nat → Option Nat) → Nat → Nat → Nat → PteRes
  | t, _, _, 0 => .ok t
  | t, page, phys, n+1 =>
    match t page with
    | some _ => .conflict t
    | none =>
      remapPteLoop prot (updPte t page (pfn_pte (phys >>> 12) prot))
        (page+1) (phys + 4096) (n)

/-- `remap_area_pte` (lines 45-67): `pte_alloc_kernel` (failure modelled
by `allocOk = false`, returning `-ENOMEM` with the table untouched),
then the per-page loop from `addr` to `e`. -/
def remap_area_pte (allocOk : Bool) (t : Nat → Option Nat)
    (addr e phys prot : Nat) : PteRes :=
  if allocOk then remapPteLoop prot t (addr >>> 12) phys ((e - addr) >>> 12)
  else .enomem t

/-- The leaf table carried by a `PteRes`. -/
def pteTableOf : PteRes → (Nat → Option Nat)
  | .ok t => t
  | .conflict t => t
  | .enomem t => t

/-- Whether a `PteRes` is the fatal overlap conflict. -/
def isConflict : PteRes → Bool
  | .conflict _ => true
  | _ => false

/-- `__check_kvm_seq` (lines 120-132) against a time-indexed environment:
`g t` is `init_mm.context.kvm_seq` at instant `t` and `C t` the canonical
upper-level slice at instant `t`.  Each iteration reads the generation,
copies the slice, records the generation read before the copy, and
retries unless a re-read taken after the copy still equals it.  Returns
the recorded generation, the slice installed in the target address
space, and the instant just after the loop exits (`fuel` bounds the
number of retries; the C loop has no bound). -/
def check_kvm_seq {A : Type} (g : Nat → Nat) (C : Nat → A) :
    Nat → Nat → Option (Nat × A × Nat)
  | _, 0 => none
  | t, fuel+1 =>
    if g t = g (t+1) then some (g t, C t, t+2)
    else check_kvm_seq g C (t+2) (fuel)

/-- The supersection-eligibility condition as the code implements it
(used to state the amended C1): single-processor, `DOMAIN_IO == 0`, the
CPU capability, `pfn >= 0x100000`, and 16 MiB alignment of
`phys | size | addr`. -/
def superSel (cfg : Cfg) (pfn size addr : Nat) : Prop :=
  cfg.smp = false ∧ cfg.domainIOZero = true ∧
  ((cfg.archGeV6 = true ∧ cfg.crXP = true) ∨ cfg.xsc3 = true) ∧
  0x100000 ≤ pfn ∧ (pfnToPhys pfn ||| size ||| addr) &&& 0xffffff = 0

/-- The section-eligibility condition as the code implements it. -/
def sectSel (cfg : Cfg) (pfn size addr : Nat) : Prop :=
  cfg.smp = false ∧ ¬ superSel cfg pfn size addr ∧
  (pfnToPhys pfn ||| size ||| addr) &&& 0x1fffff = 0

/-- The per-region rejection conditions of the strided mapper, written
out over the resolved strides (used to state the amended C2). -/
def regionBadResolved (r : SIn) (i : Nat) : Prop :=
  ((r.phys.getD i 0 ||| r.size.getD i 0 |||
    resolved r.vstride i (r.size.getD i 0) |||
    resolved r.pstride i (r.size.getD i 0)) &&& 0xfff ≠ 0)
  ∨ r.size.getD i 0 = 0
  ∨ resolved r.pstride i (r.size.getD i 0) <
      resolved r.vstride i (r.size.getD i 0)
  ∨ (resolved r.pstride i (r.size.getD i 0) ≠ 0 ∧
     r.size.getD i 0 % resolved r.pstride i (r.size.getD i 0) ≠ 0)
  ∨ wrap32sub1 (r.phys.getD i 0 + r.size.getD i 0) < r.phys.getD i 0
  ∨ ((resolved r.pstride i (r.size.getD i 0) = 0 ∧
      resolved r.vstride i (r.size.getD i 0) ≠ 0) ∨
     (resolved r.pstride i (r.size.getD i 0) ≠ 0 ∧
      resolved r.vstride i (r.size.getD i 0) = 0))

/-- A memory type used by concrete evaluations. -/
def tyW : MemType := ⟨1, 2⟩

/-- A capable uniprocessor configuration. -/
def cfgUP : Cfg := ⟨false, true, true, true, false⟩

/-- An SMP configuration (the block-mapper branch is compiled out). -/
def cfgSMP : Cfg := ⟨true, false, false, false, false⟩

/-- An environment whose collaborators always succeed. -/
def envW : Env :=
  ⟨fun _ => some tyW, fun _ => some 0xf0000000, fun _ _ _ _ _ => 0, cfgSMP⟩

/-- An environment for the C1 counterexample: a capable uniprocessor, a
16 MiB-aligned virtual area, all populator runs succeed. -/
def envC1 : Env :=
  ⟨fun _ => some tyW, fun _ => some 0xc1000000, fun _ _ _ _ _ => 0, cfgUP⟩

/-- An environment in which only the populator run at virtual address
`0xe0000000` fails — the first step of the first strided region. -/
def envBug : Env :=
  ⟨fun _ => some tyW, fun _ => some 0xe0000000,
   fun _ a _ _ _ => if a = 0xe0000000 then 12 else 0, cfgSMP⟩

/-- An environment in which every populator run fails with `-ENOMEM`. -/
def envFail : Env :=
  ⟨fun _ => some tyW, fun _ => some 0xf0000000, fun _ _ _ _ _ => 12, cfgSMP⟩

/-- Strided input with only the virtual stride supplied. -/
def inC2 : SIn := ⟨[0x40000000], [0x2000], none, some [0x1000]⟩

/-- Strided input whose single region takes two page-granularity steps. -/
def inBug : SIn := ⟨[0x40000000], [0x2000], some [0x1000], some [0x1000]⟩

/-- A leaf table occupied exactly at page number 5. -/
def tW : Nat → Option Nat := fun q => if q = 5 then some 7 else none

/-- An upper-level table: a section pair at slots 0-1, leaf-table
pointers at slots 2 and 3, empty elsewhere. -/
def pmdW : Nat → PmdEntry :=
  fun s => if s < 2 then .sect 9
           else if s = 2 then .table 3
           else if s = 3 then .table 4
           else .empty

/-- A constant generation history. -/
def gW : Nat → Nat := fun _ => 3

/-- A canonical-slice history for the synchronizer evaluations. -/
def CW : Nat → Nat := fun t => t

theorem slotOf_add (addr : Nat) : slotOf (addr + 2097152) = slotOf addr + 2 := by
  unfold slotOf
  rw [Nat.shiftRight_eq_div_pow, Nat.shiftRight_eq_div_pow]
  have h21 : (2:Nat)^21 = 2097152 := by norm_num
  rw [h21]
  omega

theorem remapIter_pmd_self (sigma : KState) (s pfn prot : Nat) :
    (remapIter sigma s pfn prot).pmd s = .sect (sectVal pfn prot)
    ∧ (remapIter sigma s pfn prot).pmd (s+1) = .sect (sectVal (pfn + 256) prot) := by
  have hne : s ≠ s + 1 := by omega
  constructor <;> simp [remapIter, updPmd, hne]

theorem remapIter_pmd_other (sigma : KState) (s pfn prot x : Nat)
    (h1 : x ≠ s) (h2 : x ≠ s + 1) :
    (remapIter sigma s pfn prot).pmd x = sigma.pmd x := by
  simp [remapIter, updPmd, h1, h2]

theorem remapLoop_pmd_lt :
    ∀ (n : Nat) (sigma : KState) (addr pfn prot x : Nat), x < slotOf addr →
    (remapLoop sigma addr pfn prot n).pmd x = sigma.pmd x := by
  intro n
  induction n with
  | zero => intro sigma addr pfn prot x _; rfl
  | succ n ih =>
    intro sigma addr pfn prot x hx
    unfold remapLoop
    rw [ih _ _ _ _ x (by rw [slotOf_add]; omega)]
    exact remapIter_pmd_other sigma (slotOf addr) pfn prot x (by omega) (by omega)

theorem remapLoop_writes :
    ∀ (n : Nat) (sigma : KState) (addr pfn prot k : Nat), k < n →
    (remapLoop sigma addr pfn prot n).pmd (slotOf addr + 2*k)
      = .sect (sectVal (pfn + 512*k) prot)
    ∧ (remapLoop sigma addr pfn prot n).pmd (slotOf addr + 2*k + 1)
      = .sect (sectVal (pfn + 512*k + 256) prot) := by
  intro n
  induction n with
  | zero => intro sigma addr pfn prot k hk; omega
  | succ n ih =>
    intro sigma addr pfn prot k hk
    unfold remapLoop
    rcases k with _ | k
    · simp only [Nat.mul_zero, Nat.add_zero]
      constructor
      · rw [remapLoop_pmd_lt n _ _ _ _ _ (by rw [slotOf_add]; omega)]
        exact (remapIter_pmd_self sigma (slotOf addr) pfn prot).1
      · rw [remapLoop_pmd_lt n _ _ _ _ _ (by rw [slotOf_add]; omega)]
        exact (remapIter_pmd_self sigma (slotOf addr) pfn prot).2
    · have h1 : slotOf addr + 2*(k+1) = slotOf (addr + 2097152) + 2*k := by
        rw [slotOf_add]; omega
      have h2 : pfn + 512*(k+1) = (pfn + 512) + 512*k := by omega
      rw [h1, h2]
      exact ih _ _ _ _ k (by omega)

theorem unmapIter_pmd_other (sigma : KState) (s x : Nat)
    (h1 : x ≠ s) (h2 : x ≠ s + 1) :
    (unmapIter sigma s).pmd x = sigma.pmd x := by
  unfold unmapIter
  cases hp : sigma.pmd s <;> simp [updPmd, h1, h2]

theorem unmapIter_pmd_empty (sigma : KState) (s x : Nat)
    (h : sigma.pmd x = .empty) :
    (unmapIter sigma s).pmd x = .empty := by
  unfold unmapIter
  cases hp : sigma.pmd s <;> simp [updPmd] <;> intros <;> exact h

theorem unmapIter_noop (sigma : KState) (s : Nat) (h : sigma.pmd s = .empty) :
    unmapIter sigma s = sigma := by
  unfold unmapIter
  rw [h]

theorem unmapIter_seq_le (sigma : KState) (s : Nat) :
    sigma.seq ≤ (unmapIter sigma s).seq := by
  unfold unmapIter
  cases sigma.pmd s <;> simp

theorem unmapIter_seq_succ (sigma : KState) (s : Nat) (h : sigma.pmd s ≠ .empty) :
    (unmapIter sigma s).seq = sigma.seq + 1 := by
  unfold unmapIter
  cases hp : sigma.pmd s with
  | empty => exact absurd hp h
  | table tid => rfl
  | sect v => rfl

theorem unmapIter_freed_mono (sigma : KState) (s tid : Nat)
    (h : tid ∈ sigma.freed) : tid ∈ (unmapIter sigma s).freed := by
  unfold unmapIter
  cases sigma.pmd s <;> simp [h]

theorem unmapIter_frees_self (sigma : KState) (s tid : Nat)
    (h : sigma.pmd s = .table tid) : tid ∈ (unmapIter sigma s).freed := by
  unfold unmapIter
  rw [h]
  simp

theorem unmapIter_clears (sigma : KState) (s : Nat)
    (hh : sigma.pmd s = .empty → sigma.pmd (s+1) = .empty) :
    (unmapIter sigma s).pmd s = .empty ∧ (unmapIter sigma s).pmd (s+1) = .empty := by
  have hne : s ≠ s + 1 := by omega
  unfold unmapIter
  cases hp : sigma.pmd s with
  | empty => exact ⟨hp, hh hp⟩
  | table tid => constructor <;> simp [updPmd, hne]
  | sect v => constructor <;> simp [updPmd, hne]

theorem unmapIter_trace (sigma : KState) (s : Nat) :
    ∃ m, (unmapIter sigma s).trace = sigma.trace ++ m := by
  unfold unmapIter
  cases sigma.pmd s with
  | empty => exact ⟨[], by simp⟩
  | table tid => exact ⟨[.clearPmd s, .freeTable tid], rfl⟩
  | sect v => exact ⟨[.clearPmd s], rfl⟩

theorem unmapLoop_pmd_lt :
    ∀ (n : Nat) (sigma : KState) (addr x : Nat), x < slotOf addr →
    (unmapLoop sigma addr n).pmd x = sigma.pmd x := by
  intro n
  induction n with
  | zero => intro sigma addr x _; rfl
  | succ n ih =>
    intro sigma addr x hx
    unfold unmapLoop
    rw [ih _ _ x (by rw [slotOf_add]; omega)]
    exact unmapIter_pmd_other sigma (slotOf addr) x (by omega) (by omega)

theorem unmapLoop_pmd_empty :
    ∀ (n : Nat) (sigma : KState) (addr x : Nat), sigma.pmd x = .empty →
    (unmapLoop sigma addr n).pmd x = .empty := by
  intro n
  induction n with
  | zero => intro sigma addr x h; exact h
  | succ n ih =>
    intro sigma addr x h
    unfold unmapLoop
    exact ih _ _ x (unmapIter_pmd_empty sigma (slotOf addr) x h)

theorem unmapLoop_seq_le :
    ∀ (n : Nat) (sigma : KState) (addr : Nat),
    sigma.seq ≤ (unmapLoop sigma addr n).seq := by
  intro n
  induction n with
  | zero => intro sigma addr; exact Nat.le_refl _
  | succ n ih =>
    intro sigma addr
    unfold unmapLoop
    exact Nat.le_trans (unmapIter_seq_le sigma (slotOf addr)) (ih _ _)

theorem unmapLoop_freed_mono :
    ∀ (n : Nat) (sigma : KState) (addr tid : Nat), tid ∈ sigma.freed →
    tid ∈ (unmapLoop sigma addr n).freed := by
  intro n
  induction n with
  | zero => intro sigma addr tid h; exact h
  | succ n ih =>
    intro sigma addr tid h
    unfold unmapLoop
    exact ih _ _ tid (unmapIter_freed_mono sigma (slotOf addr) tid h)

theorem unmapLoop_clears :
    ∀ (n : Nat) (sigma : KState) (addr i : Nat), i < n →
    (sigma.pmd (slotOf addr + 2*i) = .empty →
     sigma.pmd (slotOf addr + 2*i + 1) = .empty) →
    (unmapLoop sigma addr n).pmd (slotOf addr + 2*i) = .empty
    ∧ (unmapLoop sigma addr n).pmd (slotOf addr + 2*i + 1) = .empty := by
  intro n
  induction n with
  | zero => intro sigma addr i hi _; omega
  | succ n ih =>
    intro sigma addr i hi hh
    unfold unmapLoop
    rcases i with _ | i
    · simp only [Nat.mul_zero, Nat.add_zero] at hh ⊢
      have hc := unmapIter_clears sigma (slotOf addr) hh
      exact ⟨unmapLoop_pmd_empty n _ _ _ hc.1, unmapLoop_pmd_empty n _ _ _ hc.2⟩
    · have ho1 : slotOf addr + 2*(i+1) ≠ slotOf addr := by omega
      have ho2 : slotOf addr + 2*(i+1) ≠ slotOf addr + 1 := by omega
      have ho3 : slotOf addr + 2*(i+1) + 1 ≠ slotOf addr := by omega
      have ho4 : slotOf addr + 2*(i+1) + 1 ≠ slotOf addr + 1 := by omega
      have heq : slotOf addr + 2*(i+1) = slotOf (addr + 2097152) + 2*i := by
        rw [slotOf_add]; omega
      have hh2 : (unmapIter sigma (slotOf addr)).pmd (slotOf (addr + 2097152) + 2*i)
            = .empty →
          (unmapIter sigma (slotOf addr)).pmd (slotOf (addr + 2097152) + 2*i + 1)
            = .empty := by
        rw [← heq, unmapIter_pmd_other sigma (slotOf addr) _ ho1 ho2,
          unmapIter_pmd_other sigma (slotOf addr) _ ho3 ho4]
        exact hh
      have := ih (unmapIter sigma (slotOf addr)) (addr + 2097152) i (by omega) hh2
      rw [heq]
      exact this

theorem unmapLoop_frees :
    ∀ (n : Nat) (sigma : KState) (addr i tid : Nat), i < n →
    sigma.pmd (slotOf addr + 2*i) = .table tid →
    tid ∈ (unmapLoop sigma addr n).freed := by
  intro n
  induction n with
  | zero => intro sigma addr i tid hi _; omega
  | succ n ih =>
    intro sigma addr i tid hi hp
    unfold unmapLoop
    rcases i with _ | i
    · simp only [Nat.mul_zero, Nat.add_zero] at hp
      exact unmapLoop_freed_mono n _ _ tid (unmapIter_frees_self sigma (slotOf addr) tid hp)
    · have ho1 : slotOf addr + 2*(i+1) ≠ slotOf addr := by omega
      have ho2 : slotOf addr + 2*(i+1) ≠ slotOf addr + 1 := by omega
      have heq : slotOf addr + 2*(i+1) = slotOf (addr + 2097152) + 2*i := by
        rw [slotOf_add]; omega
      apply ih (unmapIter sigma (slotOf addr)) (addr + 2097152) i tid (by omega)
      rw [← heq, unmapIter_pmd_other sigma (slotOf addr) _ ho1 ho2]
      exact hp

theorem unmapLoop_seq_lt :
    ∀ (n : Nat) (sigma : KState) (addr i : Nat), i < n →
    sigma.pmd (slotOf addr + 2*i) ≠ .empty →
    sigma.seq < (unmapLoop sigma addr n).seq := by
  intro n
  induction n with
  | zero => intro sigma addr i hi _; omega
  | succ n ih =>
    intro sigma addr i hi hp
    unfold unmapLoop
    rcases i with _ | i
    · simp only [Nat.mul_zero, Nat.add_zero] at hp
      have h1 := unmapIter_seq_succ sigma (slotOf addr) hp
      have h2 := unmapLoop_seq_le n (unmapIter sigma (slotOf addr)) (addr + 2097152)
      omega
    · have ho1 : slotOf addr + 2*(i+1) ≠ slotOf addr := by omega
      have ho2 : slotOf addr + 2*(i+1) ≠ slotOf addr + 1 := by omega
      have heq : slotOf addr + 2*(i+1) = slotOf (addr + 2097152) + 2*i := by
        rw [slotOf_add]; omega
      have h1 := unmapIter_seq_le sigma (slotOf addr)
      have h2 := ih (unmapIter sigma (slotOf addr)) (addr + 2097152) i (by omega)
        (by rw [← heq, unmapIter_pmd_other sigma (slotOf addr) _ ho1 ho2]; exact hp)
      omega

theorem unmapLoop_trace :
    ∀ (n : Nat) (sigma : KState) (addr : Nat),
    ∃ m, (unmapLoop sigma addr n).trace = sigma.trace ++ m := by
  intro n
  induction n with
  | zero => intro sigma addr; exact ⟨[], by simp [unmapLoop]⟩
  | succ n ih =>
    intro sigma addr
    unfold unmapLoop
    obtain ⟨m1, hm1⟩ := unmapIter_trace sigma (slotOf addr)
    obtain ⟨m2, hm2⟩ := ih (unmapIter sigma (slotOf addr)) (addr + 2097152)
    exact ⟨m1 ++ m2, by rw [hm2, hm1, List.append_assoc]⟩

theorem withTrace_pmd (s : KState) (evs : List MEv) : (withTrace s evs).pmd = s.pmd := rfl

theorem withTrace_seq (s : KState) (evs : List MEv) : (withTrace s evs).seq = s.seq := rfl

theorem withTrace_freed (s : KState) (evs : List MEv) :
    (withTrace s evs).freed = s.freed := rfl

theorem withTrace_trace (s : KState) (evs : List MEv) :
    (withTrace s evs).trace = s.trace ++ evs := rfl

theorem syncIfStale_pmd (aseq : Nat) (s : KState) : (syncIfStale aseq s).pmd = s.pmd := by
  unfold syncIfStale
  split_ifs <;> rfl

theorem syncIfStale_seq (aseq : Nat) (s : KState) : (syncIfStale aseq s).seq = s.seq := by
  unfold syncIfStale
  split_ifs <;> rfl

theorem syncIfStale_freed (aseq : Nat) (s : KState) :
    (syncIfStale aseq s).freed = s.freed := by
  unfold syncIfStale
  split_ifs <;> rfl

theorem syncIfStale_trace (aseq : Nat) (s : KState) :
    ∃ m, (syncIfStale aseq s).trace = s.trace ++ m := by
  unfold syncIfStale
  split_ifs
  · exact ⟨[.syncMm s.seq], rfl⟩
  · exact ⟨[], by simp [withTrace]⟩

theorem unmap_eq_loop (pmd0 : Nat → PmdEntry) (seq0 aseq virt size : Nat) :
    (unmap_area_sections pmd0 seq0 aseq virt size).pmd =
      (unmapLoop ⟨pmd0, seq0, [],
        [.flushCacheVunmap virt (virt + ((size >>> 20) <<< 20))]⟩ virt
        (iterCount2M virt (virt + ((size >>> 20) <<< 20)))).pmd
    ∧ (unmap_area_sections pmd0 seq0 aseq virt size).seq =
      (unmapLoop ⟨pmd0, seq0, [],
        [.flushCacheVunmap virt (virt + ((size >>> 20) <<< 20))]⟩ virt
        (iterCount2M virt (virt + ((size >>> 20) <<< 20)))).seq
    ∧ (unmap_area_sections pmd0 seq0 aseq virt size).freed =
      (unmapLoop ⟨pmd0, seq0, [],
        [.flushCacheVunmap virt (virt + ((size >>> 20) <<< 20))]⟩ virt
        (iterCount2M virt (virt + ((size >>> 20) <<< 20)))).freed := by
  refine ⟨?_, ?_, ?_⟩ <;>
    simp only [unmap_area_sections, withTrace_pmd, withTrace_seq, withTrace_freed,
      syncIfStale_pmd, syncIfStale_seq, syncIfStale_freed]

theorem unmap_trace_shape (pmd0 : Nat → PmdEntry) (seq0 aseq virt size : Nat) :
    (unmap_area_sections pmd0 seq0 aseq virt size).trace.head? =
      some (.flushCacheVunmap virt (virt + ((size >>> 20) <<< 20)))
    ∧ (unmap_area_sections pmd0 seq0 aseq virt size).trace.getLast? =
      some (.flushTLB virt (virt + ((size >>> 20) <<< 20))) := by
  obtain ⟨m1, hm1⟩ := unmapLoop_trace
    (iterCount2M virt (virt + ((size >>> 20) <<< 20)))
    ⟨pmd0, seq0, [], [.flushCacheVunmap virt (virt + ((size >>> 20) <<< 20))]⟩ virt
  obtain ⟨m2, hm2⟩ := syncIfStale_trace aseq
    (unmapLoop
      ⟨pmd0, seq0, [], [.flushCacheVunmap virt (virt + ((size >>> 20) <<< 20))]⟩
      virt (iterCount2M virt (virt + ((size >>> 20) <<< 20))))
  constructor
  · rw [unmap_area_sections, withTrace_trace, hm2, hm1]
    simp
  · rw [unmap_area_sections, withTrace_trace, List.getLast?_append_cons]
    rfl

theorem check_spec {A : Type} (g : Nat → Nat) (C : Nat → A) :
    ∀ (fuel t rc : Nat) (sl : A) (t2 : Nat),
    check_kvm_seq g C t fuel = some (rc, sl, t2) →
    t ≤ t2 - 2 ∧ rc = g (t2 - 2) ∧ g (t2 - 2) = g (t2 - 1) ∧ sl = C (t2 - 2) := by
  intro fuel
  induction fuel with
  | zero => intro t rc sl t2 h; exact absurd h (by simp [check_kvm_seq])
  | succ fuel ih =>
    intro t rc sl t2 h
    unfold check_kvm_seq at h
    by_cases hg : g t = g (t+1)
    · rw [if_pos hg] at h
      simp only [Option.some.injEq, Prod.mk.injEq] at h
      obtain ⟨h1, h2, h3⟩ := h
      subst h3
      have e2 : t + 2 - 2 = t := by omega
      have e1 : t + 2 - 1 = t + 1 := by omega
      rw [e2, e1]
      exact ⟨Nat.le_refl t, h1.symm, hg, h2.symm⟩
    · rw [if_neg hg] at h
      have := ih (t+2) rc sl t2 h
      exact ⟨by omega, this.2.1, this.2.2.1, this.2.2.2⟩

theorem validateFrom_none (r : SIn) :
    ∀ (n i tot k : Nat), k < n →
    (strideXorFail r (i + k) || regionReject r (i + k) || regionHigh r (i + k)) = true →
    validateFrom r i tot n = none := by
  intro n
  induction n with
  | zero => intro i tot k hk; omega
  | succ n ih =>
    intro i tot k hk hbad
    unfold validateFrom
    cases hx : strideXorFail r i <;> simp only [hx, if_true, if_false, Bool.false_eq_true]
    cases hr : regionReject r i <;> simp only [hr, if_true, if_false, Bool.false_eq_true]
    cases hh : regionHigh r i <;> simp only [hh, if_true, if_false, Bool.false_eq_true]
    · cases k with
      | zero => simp only [Nat.add_zero] at hbad; simp_all
      | succ k =>
        have heq : (i + 1) + k = i + (k + 1) := by omega
        exact ih (i+1) (tot + regionAdd r i) k (by omega) (by rw [heq]; exact hbad)

theorem strided_reject_iff (r : SIn) (i : Nat) :
    (strideXorFail r i || regionReject r i) = true ↔ regionBadResolved r i := by
  simp only [strideXorFail, regionReject, regionBadResolved]
  generalize resolved r.pstride i (r.size.getD i 0) = ps
  generalize resolved r.vstride i (r.size.getD i 0) = vs
  generalize r.size.getD i 0 = sz
  generalize r.phys.getD i 0 = ph
  rcases ps with _ | ps <;> rcases vs with _ | vs
  · simp; tauto
  · simp
  · simp
  · simp [or_assoc]

theorem remapPteLoop_preserve (prot : Nat) :
    ∀ (n : Nat) (t : Nat → Option Nat) (page phys q v : Nat), t q = some v →
    pteTableOf (remapPteLoop prot t page phys n) q = some v := by
  intro n
  induction n with
  | zero => intro t page phys q v h; simpa [remapPteLoop, pteTableOf]
  | succ n ih =>
    intro t page phys q v h
    unfold remapPteLoop
    cases hp : t page with
    | some w => simpa [pteTableOf]
    | none =>
      apply ih
      have hne : q ≠ page := fun he => by rw [he, hp] at h; exact Option.noConfusion h
      simpa [updPte, hne]

theorem remapPteLoop_conflict (prot : Nat) :
    ∀ (n : Nat) (t : Nat → Option Nat) (page phys i : Nat), i < n →
    t (page + i) ≠ none →
    isConflict (remapPteLoop prot t page phys n) = true := by
  intro n
  induction n with
  | zero => intro t page phys i hi _; omega
  | succ n ih =>
    intro t page phys i hi hocc
    unfold remapPteLoop
    cases hp : t page with
    | some w => simp [isConflict]
    | none =>
      rcases i with _ | i
      · rw [Nat.add_zero] at hocc; exact absurd hp hocc
      · apply ih _ (page+1) (phys+4096) i (by omega)
        have hne : page + 1 + i ≠ page := by omega
        have harg : page + 1 + i = page + (i+1) := by omega
        simpa [updPte, hne, harg]

theorem remapPteLoop_untouched (prot : Nat) :
    ∀ (n : Nat) (t : Nat → Option Nat) (page phys i : Nat),
    (∀ j, j < i → t (page + j) = none) → t (page + i) ≠ none → i < n →
    ∀ q, page + i ≤ q → pteTableOf (remapPteLoop prot t page phys n) q = t q := by
  intro n
  induction n with
  | zero => intro t page phys i _ _ hi; omega
  | succ n ih =>
    intro t page phys i hfree hocc hi q hq
    unfold remapPteLoop
    cases hp : t page with
    | some w => simp [pteTableOf]
    | none =>
      rcases i with _ | i
      · rw [Nat.add_zero] at hocc; exact absurd hp hocc
      · have hup : ∀ x, x ≠ page →
            updPte t page (pfn_pte (phys >>> 12) prot) x = t x := by
          intro x hx; simp [updPte, hx]
        have hres := ih (updPte t page (pfn_pte (phys >>> 12) prot))
          (page+1) (phys+4096) i
          (by
            intro j hj
            rw [hup (page + 1 + j) (by omega)]
            have hj2 : page + 1 + j = page + (j+1) := by omega
            rw [hj2]
            exact hfree (j+1) (by omega))
          (by
            rw [hup (page + 1 + i) (by omega)]
            have hi2 : page + 1 + i = page + (i+1) := by omega
            rw [hi2]
            exact hocc)
          (by omega) q (by omega)
        rw [hres, hup q (by omega)]

/-- Claim C1 (corrected): the granularity choice of `map` is a pure
function of alignment, processor configuration and hardware capability,
but the supersection branch additionally requires the frame number to be
at least `0x100000` and `DOMAIN_IO == 0` — the threshold is an
eligibility condition (line 288), not only an encoding concern.  The
selection is: supersection exactly under `superSel` (single-processor,
`DOMAIN_IO == 0`, the v6+XP-or-xsc3 capability, `pfn >= 0x100000`, and
16 MiB alignment of `phys | size | addr`); else section exactly under
`sectSel` (single-processor and 2 MiB alignment); else page. -/
theorem c1_granularity_amended (cfg : Cfg) (pfn size addr : Nat) :
    (granularityFor cfg pfn size addr = .supersection ↔ superSel cfg pfn size addr)
    ∧ (granularityFor cfg pfn size addr = .sect ↔ sectSel cfg pfn size addr)
    ∧ (granularityFor cfg pfn size addr = .page ↔
        (¬ superSel cfg pfn size addr ∧ ¬ sectSel cfg pfn size addr)) := by
  rcases cfg with ⟨smp, dz, a6, xp, x3⟩
  simp only [granularityFor, sectSel, superSel]
  cases smp <;> simp <;> split_ifs <;> simp_all

/-- Claim C1 counterexample: on a capable uniprocessor with
`DOMAIN_IO == 0`, with physical base, virtual base and size all aligned
to the 16 MiB supersection size but `pfn = 0x1000 < 0x100000`, `map`
dispatches a section mapping, not the supersection mapping the claim
requires. -/
theorem c1_counterexample :
    (cfgUP.smp = false ∧ cfgUP.domainIOZero = true ∧
     ((cfgUP.archGeV6 = true ∧ cfgUP.crXP = true) ∨ cfgUP.xsc3 = true) ∧
     pfnToPhys 0x1000 &&& 0xffffff = 0 ∧ (0x1000000 : Nat) &&& 0xffffff = 0 ∧
     (0xc1000000 : Nat) &&& 0xffffff = 0)
    ∧ granularityFor cfgUP 0x1000 0x1000000 0xc1000000 = .sect
    ∧ (ioremapPfnCaller envC1 0x1000 0 0x1000000 0).2 =
        [.reserve 0x1000000 0xc1000000,
         .dispatch .sect 0xc1000000 0x1000 0x1000000,
         .flushCacheVmap 0xc1000000 0xc2000000] := by
  decide

/-- Claim C2 (corrected): a strided region is rejected before any
reservation or mapping exactly under the conditions of
`regionBadResolved`, which are evaluated on the *resolved* strides: a
missing or zero stride first defaults to the region size, and the
both-or-neither test applies to those resolved values — so supplying
exactly one stride with a nonzero size is not by itself rejected.  Any
region that meets a rejection condition makes the whole call return NULL
with no reservation and no mapping step. -/
theorem c2_validation_amended :
    (∀ (r : SIn) (i : Nat),
       (strideXorFail r i || regionReject r i) = true ↔ regionBadResolved r i)
    ∧ (∀ (env : Env) (n : Nat) (r : SIn) (mtype k : Nat), k < n →
       (strideXorFail r k || regionReject r k) = true →
       stridedIoremap env n r mtype = (none, [])) := by
  constructor
  · exact strided_reject_iff
  · intro env n r mtype k hk hbad
    unfold stridedIoremap
    by_cases hn : 4 < n
    · rw [if_pos hn]
    · have hval : validateFrom r 0 0 n = none := by
        apply validateFrom_none r n 0 0 k hk
        simp only [Nat.zero_add]
        simp only [Bool.or_eq_true] at hbad ⊢
        tauto
      rw [if_neg hn, hval]

/-- Claim C2 counterexample: a region that supplies only the virtual
stride (the physical stride defaults to the region size) passes
validation and is mapped — the call returns an address, not NULL. -/
theorem c2_counterexample :
    inC2.pstride = none ∧ inC2.vstride = some [0x1000] ∧
    (stridedIoremap envW 1 inC2 0).1 = some 0xf0000000 := by
  decide

/-- Claim C2 witness: a region with `vstride > pstride` satisfies
`regionBadResolved` and the whole strided call is rejected with no
effects. -/
theorem c2_witness :
    (strideXorFail ⟨[0x1000], [0x3000], some [0x1000], some [0x2000]⟩ 0 ||
     regionReject ⟨[0x1000], [0x3000], some [0x1000], some [0x2000]⟩ 0) = true
    ∧ regionBadResolved ⟨[0x1000], [0x3000], some [0x1000], some [0x2000]⟩ 0
    ∧ stridedIoremap envW 1 ⟨[0x1000], [0x3000], some [0x1000], some [0x2000]⟩ 0
        = (none, []) := by
  refine ⟨by decide, ?_, ?_⟩
  · exact (c2_validation_amended.1 ⟨[0x1000], [0x3000], some [0x1000], some [0x2000]⟩
      0).mp (by decide)
  · exact c2_validation_amended.2 envW 1
      ⟨[0x1000], [0x3000], some [0x1000], some [0x2000]⟩ 0 0 (by decide) (by decide)

/-- Claim C3 (confirmed): the leaf populator never overwrites an
occupied slot.  Any slot holding a value before the call holds the same
value afterwards, whatever the outcome; when a slot inside the range is
occupied, the run ends in the fatal conflict (`BUG()`), a constructor
distinct from the `-ENOMEM` error return; and from the first occupied
slot on, the table is exactly as it was before the call — the loop
aborts at the conflict without writing further. -/
theorem c3_no_overwrite (allocOk : Bool) (t : Nat → Option Nat)
    (addr e phys prot : Nat) :
    (∀ q v, t q = some v →
       pteTableOf (remap_area_pte allocOk t addr e phys prot) q = some v)
    ∧ (allocOk = true →
       ∀ i, i < (e - addr) >>> 12 → t ((addr >>> 12) + i) ≠ none →
       isConflict (remap_area_pte allocOk t addr e phys prot) = true)
    ∧ (allocOk = true →
       ∀ i, (∀ j, j < i → t ((addr >>> 12) + j) = none) →
       t ((addr >>> 12) + i) ≠ none → i < (e - addr) >>> 12 →
       ∀ q, (addr >>> 12) + i ≤ q →
       pteTableOf (remap_area_pte allocOk t addr e phys prot) q = t q) := by
  refine ⟨?_, ?_, ?_⟩
  · intro q v h
    unfold remap_area_pte
    cases allocOk with
    | false => simpa [pteTableOf]
    | true => simpa using remapPteLoop_preserve prot _ t (addr >>> 12) phys q v h
  · intro ha i hi hocc
    subst ha
    unfold remap_area_pte
    simpa using remapPteLoop_conflict prot _ t (addr >>> 12) phys i hi hocc
  · intro ha i hfree hocc hi q hq
    subst ha
    unfold remap_area_pte
    simpa using remapPteLoop_untouched prot _ t (addr >>> 12) phys i hfree hocc hi q hq

/-- Claim C3 witness on the table occupied at page 5 over pages 4-7. -/
theorem c3_witness :
    pteTableOf (remap_area_pte true tW 0x4000 0x8000 0 3) 5 = some 7
    ∧ isConflict (remap_area_pte true tW 0x4000 0x8000 0 3) = true
    ∧ pteTableOf (remap_area_pte true tW 0x4000 0x8000 0 3) 6 = tW 6 := by
  refine ⟨?_, ?_, ?_⟩
  · exact (c3_no_overwrite true tW 0x4000 0x8000 0 3).1 5 7 (by decide)
  · exact (c3_no_overwrite true tW 0x4000 0x8000 0 3).2.1 rfl 1 (by decide) (by decide)
  · exact (c3_no_overwrite true tW 0x4000 0x8000 0 3).2.2 rfl 1 (by decide) (by decide)
      (by decide) 6 (by decide)

/-- Claim C4 (confirmed): a `map` call with zero length, with
`phys + size - 1` wrapping the 32-bit address space, or with an
unresolvable memory type returns NULL with an empty trace — no virtual
area reserved, no mapping step dispatched, no cache flush. -/
theorem c4_invalid_request (env : Env) (phys size mtype : Nat)
    (h32 : phys < 4294967296)
    (h : size = 0 ∨ wrap32sub1 (phys + size) < phys ∨ env.memType mtype = none) :
    ioremapCaller env phys size mtype = (none, []) := by
  unfold ioremapCaller
  by_cases hz : size = 0 ∨ wrap32sub1 (phys + size) < phys
  · rw [if_pos hz]
  · have hm : env.memType mtype = none := by
      rcases h with h | h | h
      · exact absurd (Or.inl h) hz
      · exact absurd (Or.inr h) hz
      · exact h
    rw [if_neg hz]
    unfold ioremapPfnCaller
    have h1 : phys >>> 12 = phys / 4096 := by
      rw [Nat.shiftRight_eq_div_pow]
    have hpfn : ¬ (1048576 ≤ phys >>> 12) := by omega
    have hhr : highReject (phys >>> 12) = false := by
      simp only [highReject, Bool.and_eq_false_iff, decide_eq_false_iff_not]
      exact Or.inl hpfn
    rw [if_neg (show ¬ (highReject (phys >>> 12) = true) by simp [hhr])]
    rw [hm]

/-- Claim C4 witness: a zero-length request fails with no effects. -/
theorem c4_witness : ioremapCaller envW 0x1000 0 0 = (none, []) :=
  c4_invalid_request envW 0x1000 0 0 (by decide) (Or.inl rfl)

/-- Claim C5 (code bug): `map` does release the whole reserved area and
return NULL when the dispatched populator fails (first conjunct), but in
`map_strided` the per-step error is overwritten by the next step of the
same region because the inner loop does not test `err` (line 426): with
a two-step region whose first step fails and second succeeds, the call
returns the virtual address and never releases the reservation, against
the claimed release-and-fail behaviour. -/
theorem c5_step_error_swallowed :
    ioremapPfnCaller envFail 0x40000 0 0x1000 0 =
      (none, [.reserve 0x1000 0xf0000000,
              .dispatch .page 0xf0000000 0x40000 0x1000,
              .release 0xf0000000])
    ∧ envBug.populate .page 0xe0000000 0x40000 0x1000 tyW = 12
    ∧ stridedIoremap envBug 1 inBug 0 =
        (some 0xe0000000,
         [.reserve 0x2000 0xe0000000,
          .dispatch .page 0xe0000000 0x40000 0x1000,
          .dispatch .page 0xe0001000 0x40001 0x1000,
          .flushCacheVmap 0xe0000000 0xe0002000]) := by
  decide

/-- Claim C6 (confirmed): each iteration of the section write loop
installs two consecutive upper-level entries, each a direct section
translation for half of the 2 MiB unit, with the frame number advanced
by `SZ_1M >> PAGE_SHIFT = 256` pages between the two writes and again
after the second (so unit `k` starts at `pfn + 512 k`). -/
theorem c6_sections_writes (pmd0 : Nat → PmdEntry)
    (seq0 aseq virt pfn size prot k : Nat) (hk : k < size >>> 21) :
    (remap_area_sections pmd0 seq0 aseq virt pfn size prot).pmd (slotOf virt + 2*k)
      = .sect (sectVal (pfn + 512*k) prot)
    ∧ (remap_area_sections pmd0 seq0 aseq virt pfn size prot).pmd (slotOf virt + 2*k + 1)
      = .sect (sectVal (pfn + 512*k + 256) prot) := by
  have hn : k < iterCount2M virt (virt + size) := by
    unfold iterCount2M
    rw [Nat.shiftRight_eq_div_pow] at hk
    have h21 : (2:Nat)^21 = 2097152 := by norm_num
    rw [h21] at hk
    have h1 : size / 2097152 ≤ (virt + size - virt + 2097151) / 2097152 := by
      apply Nat.div_le_div_right; omega
    exact lt_of_lt_of_le (lt_of_lt_of_le hk h1) (le_max_right _ _)
  have hgoal : remap_area_sections pmd0 seq0 aseq virt pfn size prot =
      remapLoop (unmap_area_sections pmd0 seq0 aseq virt size) virt pfn prot
        (iterCount2M virt (virt + size)) := rfl
  rw [hgoal]
  exact remapLoop_writes (iterCount2M virt (virt + size))
    (unmap_area_sections pmd0 seq0 aseq virt size) virt pfn prot k hn

/-- Claim C6 witness: the second 2 MiB unit of a 4 MiB section mapping
lands at slots 2 and 3 with frames `pfn + 512` and `pfn + 768`. -/
theorem c6_witness :
    (remap_area_sections (fun _ => PmdEntry.empty) 0 0 0 0x100 0x400000 7).pmd 2
      = .sect (sectVal (0x100 + 512*1) 7)
    ∧ (remap_area_sections (fun _ => PmdEntry.empty) 0 0 0 0x100 0x400000 7).pmd 3
      = .sect (sectVal (0x100 + 512*1 + 256) 7) := by
  have h := c6_sections_writes (fun _ => PmdEntry.empty) 0 0 0 0x100 0x400000 7 1
    (by decide)
  exact ⟨h.1, h.2⟩

/-- Claim C7 (confirmed): block-mapping teardown clears every upper-level
entry over the (1 MiB-masked) target range, given the homogeneity
invariant that a pair with an empty even half has an empty odd half;
clearing an already-empty entry leaves the state unchanged (a no-op, no
error); every cleared entry that pointed to a leaf table gets that table
freed; the trace starts with the cache flush for the range and ends with
the TLB flush for the range; and `remap_area_sections` runs exactly this
teardown before its write loop. -/
theorem c7_teardown (pmd0 : Nat → PmdEntry) (seq0 aseq virt size : Nat)
    (hv : virt % 2097152 = 0)
    (hh : ∀ i, i < iterCount2M virt (virt + ((size >>> 20) <<< 20)) →
          pmd0 (slotOf virt + 2*i) = PmdEntry.empty →
          pmd0 (slotOf virt + 2*i + 1) = PmdEntry.empty) :
    (∀ m, m < size >>> 20 →
       (unmap_area_sections pmd0 seq0 aseq virt size).pmd ((virt >>> 20) + m)
         = PmdEntry.empty)
    ∧ (∀ (s : KState) (x : Nat), s.pmd x = PmdEntry.empty → unmapIter s x = s)
    ∧ (∀ i tid, i < iterCount2M virt (virt + ((size >>> 20) <<< 20)) →
         pmd0 (slotOf virt + 2*i) = PmdEntry.table tid →
         tid ∈ (unmap_area_sections pmd0 seq0 aseq virt size).freed)
    ∧ (unmap_area_sections pmd0 seq0 aseq virt size).trace.head? =
        some (.flushCacheVunmap virt (virt + ((size >>> 20) <<< 20)))
    ∧ (unmap_area_sections pmd0 seq0 aseq virt size).trace.getLast? =
        some (.flushTLB virt (virt + ((size >>> 20) <<< 20)))
    ∧ (∀ pfn prot, remap_area_sections pmd0 seq0 aseq virt pfn size prot =
        remapLoop (unmap_area_sections pmd0 seq0 aseq virt size) virt pfn prot
          (iterCount2M virt (virt + size))) := by
  have h21 : virt >>> 21 = virt / 2097152 := by
    rw [Nat.shiftRight_eq_div_pow]
  have h20 : virt >>> 20 = virt / 1048576 := by
    rw [Nat.shiftRight_eq_div_pow]
  have hs20 : size >>> 20 = size / 1048576 := by
    rw [Nat.shiftRight_eq_div_pow]
  have hslot : slotOf virt = virt >>> 20 := by
    unfold slotOf
    omega
  have hsl20 : (size >>> 20) <<< 20 = (size >>> 20) * 1048576 := by
    rw [Nat.shiftLeft_eq]
  have hbound : ∀ m, m < size >>> 20 →
      m / 2 < iterCount2M virt (virt + ((size >>> 20) <<< 20)) := by
    intro m hm
    unfold iterCount2M
    rw [hsl20]
    have he : virt + (size >>> 20) * 1048576 - virt + 2097151
        = (size >>> 20) * 1048576 + 2097151 := by omega
    rw [he]
    refine lt_of_lt_of_le ?_ (le_max_right _ _)
    omega
  refine ⟨?_, ?_, ?_, (unmap_trace_shape pmd0 seq0 aseq virt size).1,
    (unmap_trace_shape pmd0 seq0 aseq virt size).2, fun pfn prot => rfl⟩
  · intro m hm
    rw [(unmap_eq_loop pmd0 seq0 aseq virt size).1]
    have hi := hbound m hm
    have hcl := unmapLoop_clears
      (iterCount2M virt (virt + ((size >>> 20) <<< 20)))
      ⟨pmd0, seq0, [], [.flushCacheVunmap virt (virt + ((size >>> 20) <<< 20))]⟩
      virt (m / 2) hi (hh (m / 2) hi)
    by_cases hpar : m % 2 = 0
    · have hm2 : virt >>> 20 + m = slotOf virt + 2 * (m / 2) := by omega
      rw [hm2]
      exact hcl.1
    · have hm2 : virt >>> 20 + m = slotOf virt + 2 * (m / 2) + 1 := by omega
      rw [hm2]
      exact hcl.2
  · intro s x h
    exact unmapIter_noop s x h
  · intro i tid hi hp
    rw [(unmap_eq_loop pmd0 seq0 aseq virt size).2.2]
    exact unmapLoop_frees
      (iterCount2M virt (virt + ((size >>> 20) <<< 20)))
      ⟨pmd0, seq0, [], [.flushCacheVunmap virt (virt + ((size >>> 20) <<< 20))]⟩
      virt i tid hi hp

/-- Claim C7 witness on a table with a section pair and two leaf-table
pointers over a 4 MiB range starting at virtual 0. -/
theorem c7_witness :
    (unmap_area_sections pmdW 5 0 0 0x400000).pmd 3 = PmdEntry.empty
    ∧ unmapIter ⟨fun _ => PmdEntry.empty, 0, [], []⟩ 0
        = ⟨fun _ => PmdEntry.empty, 0, [], []⟩
    ∧ (3 : Nat) ∈ (unmap_area_sections pmdW 5 0 0 0x400000).freed
    ∧ (unmap_area_sections pmdW 5 0 0 0x400000).trace.head? =
        some (.flushCacheVunmap 0 0x400000)
    ∧ (unmap_area_sections pmdW 5 0 0 0x400000).trace.getLast? =
        some (.flushTLB 0 0x400000) := by
  have h := c7_teardown pmdW 5 0 0 0x400000 (by decide) (by decide)
  exact ⟨h.1 3 (by decide), h.2.1 ⟨fun _ => PmdEntry.empty, 0, [], []⟩ 0 rfl,
    h.2.2.1 1 3 (by decide) (by decide), h.2.2.2.1, h.2.2.2.2.1⟩

/-- Claim C8 (confirmed): the generation counter never decreases across a
teardown; it strictly increases whenever a non-empty upper-level pair
over the processed range is cleared; and refresh, run when the global
history is monotone and the previously recorded value does not exceed
the current global value, never records a smaller value than that
previous one. -/
theorem c8_generation_monotone :
    (∀ (pmd0 : Nat → PmdEntry) (seq0 aseq virt size : Nat),
       seq0 ≤ (unmap_area_sections pmd0 seq0 aseq virt size).seq)
    ∧ (∀ (pmd0 : Nat → PmdEntry) (seq0 aseq virt size i : Nat),
       i < iterCount2M virt (virt + ((size >>> 20) <<< 20)) →
       pmd0 (slotOf virt + 2*i) ≠ PmdEntry.empty →
       seq0 < (unmap_area_sections pmd0 seq0 aseq virt size).seq)
    ∧ (∀ (A : Type) (g : Nat → Nat) (C : Nat → A) (fuel t prev rc : Nat) (sl : A)
        (t2 : Nat), Monotone g → prev ≤ g t →
       check_kvm_seq g C t fuel = some (rc, sl, t2) → prev ≤ rc) := by
  refine ⟨?_, ?_, ?_⟩
  · intro pmd0 seq0 aseq virt size
    rw [(unmap_eq_loop pmd0 seq0 aseq virt size).2.1]
    exact unmapLoop_seq_le
      (iterCount2M virt (virt + ((size >>> 20) <<< 20)))
      ⟨pmd0, seq0, [], [.flushCacheVunmap virt (virt + ((size >>> 20) <<< 20))]⟩ virt
  · intro pmd0 seq0 aseq virt size i hi hp
    rw [(unmap_eq_loop pmd0 seq0 aseq virt size).2.1]
    exact unmapLoop_seq_lt
      (iterCount2M virt (virt + ((size >>> 20) <<< 20)))
      ⟨pmd0, seq0, [], [.flushCacheVunmap virt (virt + ((size >>> 20) <<< 20))]⟩
      virt i hi hp
  · intro A g C fuel t prev rc sl t2 hmono hprev h
    have hs := check_spec g C fuel t rc sl t2 h
    have hg : g t ≤ g (t2 - 2) := hmono hs.1
    omega

/-- Claim C8 witness: a teardown over a populated range strictly bumps
the counter, and a refresh against the constant history records 3 ≥ 2. -/
theorem c8_witness :
    (5 : Nat) ≤ (unmap_area_sections pmdW 5 0 0 0x200000).seq
    ∧ (5 : Nat) < (unmap_area_sections pmdW 5 0 0 0x200000).seq
    ∧ (2 : Nat) ≤ 3 :=
  ⟨c8_generation_monotone.1 pmdW 5 0 0 0x200000,
   c8_generation_monotone.2.1 pmdW 5 0 0 0x200000 0 (by decide) (by decide),
   c8_generation_monotone.2.2 Nat gW CW 1 0 2 3 0 2 monotone_const (by decide)
     (by decide)⟩

/-- Claim C9 (confirmed): when `__check_kvm_seq` returns, the generation
it used for the copy (`g (t2-2)`, read just before the copy of the
canonical slice `C (t2-2)`) equals the generation re-read after the copy
completed (`g (t2-1)`), and the value recorded for the address space at
return time is exactly that stable generation. -/
theorem c9_refresh_stable {A : Type} (g : Nat → Nat) (C : Nat → A)
    (fuel t rc : Nat) (sl : A) (t2 : Nat)
    (h : check_kvm_seq g C t fuel = some (rc, sl, t2)) :
    t ≤ t2 - 2 ∧ rc = g (t2 - 2) ∧ g (t2 - 2) = g (t2 - 1) ∧ sl = C (t2 - 2) :=
  check_spec g C fuel t rc sl t2 h

/-- Claim C9 witness on the constant generation history. -/
theorem c9_witness :
    (0 : Nat) ≤ 2 - 2 ∧ (3 : Nat) = gW (2 - 2) ∧ gW (2 - 2) = gW (2 - 1) ∧
    (0 : Nat) = CW (2 - 2) :=
  c9_refresh_stable gW CW 1 0 3 0 2 (by decide)

/-- Claim C10 (confirmed): a request whose frame number is at least
`0x100000` and whose physical address is not 16 MiB aligned is rejected
by `map` and by the validation loop of `map_strided` with no reservation
and no mapping step — the check sits before `get_mem_type` and
`get_vm_area` and outside any configuration conditional. -/
theorem c10_high_pfn_reject :
    (∀ (env : Env) (pfn offset size0 mtype : Nat),
       0x100000 ≤ pfn → pfnToPhys pfn &&& 0xffffff ≠ 0 →
       ioremapPfnCaller env pfn offset size0 mtype = (none, []))
    ∧ (∀ (env : Env) (n : Nat) (r : SIn) (mtype k : Nat), k < n →
       regionHigh r k = true →
       stridedIoremap env n r mtype = (none, [])) := by
  constructor
  · intro env pfn offset size0 mtype h1 h2
    have hb : highReject pfn = true := by
      simp only [highReject, Bool.and_eq_true, decide_eq_true_eq]
      exact ⟨h1, h2⟩
    unfold ioremapPfnCaller
    rw [if_pos (by simp [hb])]
  · intro env n r mtype k hk hh
    unfold stridedIoremap
    by_cases hn : 4 < n
    · rw [if_pos hn]
    · have hval : validateFrom r 0 0 n = none := by
        apply validateFrom_none r n 0 0 k hk
        simp only [Nat.zero_add, hh, Bool.or_true]
      rw [if_neg hn, hval]

/-- Claim C10 witness: frame `0x100001` (physical `0x100001000`) is
rejected by both entry points with no effects. -/
theorem c10_witness :
    ioremapPfnCaller envW 0x100001 0 4096 0 = (none, [])
    ∧ stridedIoremap envW 1 ⟨[0x100001000], [0x1000], none, none⟩ 0 = (none, []) :=
  ⟨c10_high_pfn_reject.1 envW 0x100001 0 4096 0 (by decide) (by decide),
   c10_high_pfn_reject.2 envW 1 ⟨[0x100001000], [0x1000], none, none⟩ 0 0
     (by decide) (by decide)⟩

end Ioremap
